import Mathlib

/-!
Verification of the directive-based file-selection engine of
obsidian-settings-manager.

The repository has two variants of the same engine:

* `src/osm.py`: `get_matching_files`, `only_relative_files_from`,
  `process_action_list_in`, `get_processing_directives`, `get_items_to_copy`,
  with the action table `FILE_ACTIONS = {"copy": set.add, "skip": set.discard}`;
* `src/glob_fun.py`: `get_items_from`, `only_files_from`, `process_item`,
  `process_one_directive`, `process`, parsing text directives
  `"Include: <pattern>"` / `"Exclude: <pattern>"`.

The embedding models the filesystem under the root directory as a snapshot:
a list of regular-file paths and a list of directory paths, both relative to
the root and represented as lists of path components (the result of splitting
the path string on `/`, dropping empty and `.` components, exactly as
`pathlib.PurePath` normalizes).  Everything the engines do is relative to a
single root (`source_dir` in osm.py; the current directory in glob_fun.py,
which chdirs to `IN_DIR` first), so paths are kept root-relative throughout;
`Path.relative_to(source_dir)` from the source is therefore the identity here.

Glob matching models `pathlib`'s glob: a pattern is split on `/` into
component patterns; a component pattern equal to `**` matches any number of
path components; any other component pattern is matched against a single
component by `fnmatch`-style matching with `*` (any run of characters) and
`?` (any single character), all other characters literal.  Character classes
(`[...]`) are outside the modelled fragment (no pattern in the repository or
in the claims uses a complete class; `fnmatch` treats an unterminated `[` as
a literal character, which coincides with this model).
-/

namespace OSM

/-- A path relative to the root directory, as its list of components. -/
abbrev RelPath := List String

/-- A snapshot of the filesystem under the root directory: the regular files
and the directories, as root-relative component lists.  The root itself is
represented by `[]` and is always a directory. -/
structure FS where
  files : List RelPath
  dirs : List RelPath

/-- Model of `Path(p).is_file()` relative to the root. -/
def is_file (fs : FS) (p : RelPath) : Prop := p ∈ fs.files

/-- Model of `Path(p).is_dir()` relative to the root; `[]` is the root. -/
def is_dir (fs : FS) (p : RelPath) : Prop := p = [] ∨ p ∈ fs.dirs

instance (fs : FS) (p : RelPath) : Decidable (is_file fs p) :=
  inferInstanceAs (Decidable (p ∈ fs.files))

instance (fs : FS) (p : RelPath) : Decidable (is_dir fs p) :=
  inferInstanceAs (Decidable (p = [] ∨ p ∈ fs.dirs))

/-- Split a character list into `/`-separated components (accumulating the
current component in reverse in `cur`), as `str.split('/')` does. -/
def splitComps : List Char → List Char → List String
  | [], cur => [String.mk cur.reverse]
  | c :: rest, cur =>
      if c = '/' then String.mk cur.reverse :: splitComps rest []
      else splitComps rest (c :: cur)

/-- Parse a path or pattern string into components, dropping empty and `.`
components as `pathlib.PurePath` normalization does (`Path('a//./b')` and
`Path('a/b')` are the same path; `Path('.')` and `Path('')` are the root). -/
def parsePath (s : String) : RelPath :=
  (splitComps s.toList []).filter (fun c => c != "" && c != ".")

/-- Run `f` on every suffix of the list (the list itself included, the empty
suffix last) and take the disjunction: the backtracking search a `*` (or a
`**` component) performs, which consumes zero or more leading elements. -/
def anySuffix (f : List α → Bool) : List α → Bool
  | [] => f []
  | c :: s => f (c :: s) || anySuffix f s

/-- Model of `fnmatch` matching of one component pattern (as a character
list) against one component (as a character list): `*` matches any run of
characters, `?` any single character, anything else itself. -/
def matchChars : List Char → List Char → Bool
  | [], s => s.isEmpty
  | a :: ps, s =>
      if a = '*' then anySuffix (matchChars ps) s
      else
        match s with
        | [] => false
        | c :: s2 =>
            if a = '?' then matchChars ps s2
            else (a == c) && matchChars ps s2

/-- Match one component pattern against one path component. -/
def matchComp (pat comp : String) : Bool :=
  matchChars pat.toList comp.toList

/-- Model of `pathlib` glob pattern matching: the pattern (as parsed
components) against a relative path (as components).  A `**` component
matches any number of path components; other components match one path
component by `fnmatch`. -/
def globMatch : List String → RelPath → Bool
  | [], p => p.isEmpty
  | q :: ps, p =>
      if q = "**" then anySuffix (globMatch ps) p
      else
        match p with
        | [] => false
        | c :: p2 => matchComp q c && globMatch ps p2

/-- All filesystem entries under the root (files and directories), the
candidates a glob walk can produce.  The root `[]` itself is not an entry. -/
def entries (fs : FS) : List RelPath := fs.files ++ fs.dirs

/-- Model of `d.rglob('*')` (equivalently `d.glob('./**/*')`): every entry
strictly below the directory `d`, root-relative. -/
def rglob_all (fs : FS) (d : RelPath) : List RelPath :=
  (entries fs).filter (fun p => d.isPrefixOf p && p != d)

/-- Model of `root.glob(pattern)`: every entry matching the glob pattern,
root-relative. -/
def glob_results (fs : FS) (pattern : String) : List RelPath :=
  (entries fs).filter (fun p => globMatch (parsePath pattern) p)

/-- osm.py `only_relative_files_from(item_list, relative_to)`: keep just the
regular files.  The source also applies `item.relative_to(relative_to)`;
paths here are root-relative already, so that is the identity. -/
def only_relative_files_from (fs : FS) (item_list : List RelPath) : List RelPath :=
  item_list.filter (fun p => decide (is_file fs p))

/-- osm.py `get_matching_files(source_dir, item)`:
a file is a list of itself; a directory is the list of files in it,
recursively; a glob is whatever files match the glob, if any. -/
def get_matching_files (fs : FS) (item : String) : List RelPath :=
  if is_file fs (parsePath item) then [parsePath item]
  else if is_dir fs (parsePath item) then
    only_relative_files_from fs (rglob_all fs (parsePath item))
  else
    only_relative_files_from fs (glob_results fs item)

/-- Python `set.add` as used through `FILE_ACTIONS["copy"]`. -/
def set_add (s : Finset RelPath) (p : RelPath) : Finset RelPath := insert p s

/-- Python `set.discard` as used through `FILE_ACTIONS["skip"]`. -/
def set_discard (s : Finset RelPath) (p : RelPath) : Finset RelPath := s.erase p

/-- The type of the set-mutating operations stored in `FILE_ACTIONS`. -/
abbrev SetOp := Finset RelPath → RelPath → Finset RelPath

/-- osm.py `FILE_ACTIONS`: map "files_to_copy" actions to functions for
managing the set of files to operate on. -/
def FILE_ACTIONS : List (String × SetOp) :=
  [("copy", set_add), ("skip", set_discard)]

/-- osm.py `process_action_list_in(source_dir, actions_list)`: start from an
empty set and apply, for each `(action, item)` pair in order, the action
function to each file matched by the item. -/
def process_action_list_in (fs : FS) (actions_list : List (SetOp × String)) :
    Finset RelPath :=
  actions_list.foldl
    (fun files ai => (get_matching_files fs ai.2).foldl ai.1 files) ∅

/-- JSON values, as parsed by `json.loads` (objects keep their entry list). -/
inductive Json where
  | null : Json
  | bool (b : Bool) : Json
  | num (n : Int) : Json
  | str (s : String) : Json
  | arr (elems : List Json) : Json
  | obj (members : List (String × Json)) : Json

/-- Errors on which osm.py prints a descriptive message and exits
(`must_get_key`, `must_be_type`, and the explicit one-key check in
`get_processing_directives`). -/
inductive ConfigError where
  | missingFilesToCopy : ConfigError
  | filesToCopyNotList : ConfigError
  | entryNotDict : ConfigError
  | entryNotSingleKey : ConfigError
  | unknownAction (action : String) : ConfigError
  | itemNotString : ConfigError

/-- One step of the loop in osm.py `get_processing_directives`: check the
entry is a dict, has exactly one key, the key is a known action in
`FILE_ACTIONS`, and the value is a string; then yield `(operation, item)`. -/
def parse_one_directive (d : Json) : Except ConfigError (SetOp × String) :=
  match d with
  | .obj [(action, item)] =>
      match FILE_ACTIONS.lookup action with
      | none => .error (.unknownAction action)
      | some operation =>
          match item with
          | .str s => .ok (operation, s)
          | _ => .error .itemNotString
  | .obj _ => .error .entryNotSingleKey
  | _ => .error .entryNotDict

/-- The loop of osm.py `get_processing_directives` over the entries of the
"files_to_copy" list: the first bad entry stops everything with its error
(the generator is fully consumed by `ACTIONS_TO_TAKE.extend` in `main`
before any directive is applied). -/
def parse_directives : List Json → Except ConfigError (List (SetOp × String))
  | [] => .ok []
  | d :: ds => do
      let p ← parse_one_directive d
      let rest ← parse_directives ds
      pure (p :: rest)

/-- osm.py `get_processing_directives()`: fetch "files_to_copy" from the OSM
configuration (a JSON object, given by its member list), require it to be a
list, and parse each entry. -/
def get_processing_directives (cfg : List (String × Json)) :
    Except ConfigError (List (SetOp × String)) :=
  match cfg.lookup "files_to_copy" with
  | none => .error .missingFilesToCopy
  | some (.arr ds) => parse_directives ds
  | some _ => .error .filesToCopyNotList

/-- Decidable shape check for one "files_to_copy" entry: a dict with exactly
one key, whose key is a known action and whose value is a string. -/
def goodEntry : Json → Bool
  | .obj [(action, .str _)] => (FILE_ACTIONS.lookup action).isSome
  | _ => false

/-- The string `str(path)` of a root-relative path. -/
def pathStr (p : RelPath) : String := String.intercalate "/" p

/-- Model of Python `sorted(...)` on the result set: `sorted` on `Path`
objects compares their full path strings.  `Finset.sort` first canonicalizes
the set to a list (a Python set iterates in unspecified order), then a stable
merge sort by the path string reproduces `sorted()`'s order. -/
def sorted_items (s : Finset RelPath) : List RelPath :=
  (s.sort (· ≤ ·)).mergeSort (fun a b => decide (pathStr a ≤ pathStr b))

/-- osm.py `get_items_to_copy(src)` together with the module-global cache
`ITEMS_TO_COPY` it reads and extends: the cache before the call is passed in,
and the returned list is both the result and the cache after the call
(`ITEMS_TO_COPY.extend(...)` runs only when the cache is empty). -/
def get_items_to_copy (fs : FS) (actions : List (SetOp × String))
    (items_to_copy : List RelPath) : List RelPath :=
  if items_to_copy.isEmpty then sorted_items (process_action_list_in fs actions)
  else items_to_copy

/-- glob_fun.py `only_files_from(item_list)`. -/
def only_files_from (fs : FS) (item_list : List RelPath) : List RelPath :=
  item_list.filter (fun p => decide (is_file fs p))

/-- glob_fun.py `get_items_from(item)` (the script chdirs to the root, so
all checks and globs are against the root): same three-way shape as
osm.py `get_matching_files`. -/
def get_items_from (fs : FS) (item : String) : List RelPath :=
  if is_file fs (parsePath item) then [parsePath item]
  else if is_dir fs (parsePath item) then
    only_files_from fs (rglob_all fs (parsePath item))
  else
    only_files_from fs (glob_results fs item)

/-- Python `str.removeprefix`: drop `pre` from the front of `s` if `s`
starts with it, else return `s` unchanged. -/
def removePrefixStr (s pre : String) : String :=
  if pre.toList.isPrefixOf s.toList then String.mk (s.toList.drop pre.toList.length)
  else s

/-- The observable state of one glob_fun.py `process` run: the result set
(`collection`) and the lines printed so far (`output`, holding the
"Unknown directive" warnings). -/
structure GState where
  collection : Finset RelPath
  output : List String

/-- glob_fun.py `process_item(item, operation, ...)`: apply `operation` to
the collection for every file the item describes. -/
def process_item (fs : FS) (item : String) (operation : SetOp)
    (collection : Finset RelPath) : Finset RelPath :=
  (get_items_from fs item).foldl operation collection

/-- glob_fun.py `process_one_directive(directive, collection)`: try to strip
`"Include: "`, then `"Exclude: "` (case-sensitively, via
`str.removeprefix`); if neither matched and the line is non-empty, print an
"Unknown directive" warning; empty lines are ignored silently. -/
def process_one_directive (fs : FS) (directive : String) (st : GState) : GState :=
  if removePrefixStr directive "Include: " ≠ directive then
    { st with collection :=
        process_item fs (removePrefixStr directive "Include: ") set_add st.collection }
  else if removePrefixStr directive "Exclude: " ≠ directive then
    { st with collection :=
        process_item fs (removePrefixStr directive "Exclude: ") set_discard st.collection }
  else if directive ≠ "" then
    { st with output :=
        st.output ++ ["Unknown directive " ++ directive ++ ", ignoring."] }
  else st

/-- glob_fun.py `process(directives)` run with its printed output: start
from an empty set and fold the directives in order. -/
def process_run (fs : FS) (directives : List String) : GState :=
  directives.foldl (fun st d => process_one_directive fs d st) ⟨∅, []⟩

/-- glob_fun.py `process(directives)`: the returned set. -/
def process (fs : FS) (directives : List String) : Finset RelPath :=
  (process_run fs directives).collection

/-- Wellformedness of a filesystem snapshot, as any real directory tree
satisfies it: the root is not a regular file, files are listed once, no path
is both a file and a directory, the root is kept out of `dirs` (it is the
special case `[]` of `is_dir`), no file is a proper prefix of another file,
and every proper nonempty prefix of a file is a directory. -/
def FS.wf (fs : FS) : Prop :=
  [] ∉ fs.files ∧ fs.files.Nodup ∧ (∀ p ∈ fs.files, p ∉ fs.dirs) ∧
    [] ∉ fs.dirs ∧ (∀ f ∈ fs.files, ∀ g ∈ fs.files, f <+: g → f = g) ∧
    (∀ f ∈ fs.files, ∀ n, n < f.length → 0 < n → f.take n ∈ fs.dirs)

instance (fs : FS) : Decidable fs.wf := by
  unfold FS.wf
  have : ∀ f : RelPath, Decidable (∀ n, n < f.length → 0 < n → f.take n ∈ fs.dirs) :=
    fun f => Nat.decidableBallLT f.length _
  exact inferInstance

/-! ### Concrete fixtures used by witnesses and counterexamples -/

/-- The vault snapshot of the end-to-end scenario: three top-level json
files, one snippet, and two plugin directories with their files. -/
def fs_vault : FS where
  files := [["a.json"], ["b.json"], ["workspace.json"], ["snippets", "x.md"],
    ["plugins", "buttons", "styles.css"], ["plugins", "buttons", "main.js"],
    ["plugins", "tag-wrangler", "index.js"]]
  dirs := [["snippets"], ["plugins"], ["plugins", "buttons"],
    ["plugins", "tag-wrangler"]]

/-- The end-to-end scenario's directives in osm.py form: `(operation, item)`
pairs as `get_processing_directives` yields them. -/
def acts_vault : List (SetOp × String) :=
  [(set_add, "."), (set_discard, "*.json"), (set_add, "snippets"),
   (set_discard, "plugins"), (set_add, "plugins/buttons"),
   (set_discard, "plugins/buttons/styles.css"), (set_add, "plugins/tag-wrangler")]

/-- The end-to-end scenario's directives in glob_fun.py text form. -/
def dirs_vault : List String :=
  ["Include: .", "Exclude: *.json", "Include: snippets", "Exclude: plugins",
   "Include: plugins/buttons", "Exclude: plugins/buttons/styles.css",
   "Include: plugins/tag-wrangler"]

/-- A root holding a file literally named `*.json` next to an ordinary json
file: the pattern `*.json` names an existing file here. -/
def fs_star : FS where
  files := [["*.json"], ["a.json"]]
  dirs := []

/-- A root holding the single file `a.txt`. -/
def fs_small : FS where
  files := [["a.txt"]]
  dirs := []

/-- A root holding `a.json` and `sub/b.json`. -/
def fs_sub : FS where
  files := [["a.json"], ["sub", "b.json"]]
  dirs := [["sub"]]

/-- An empty root. -/
def fs_empty : FS where
  files := []
  dirs := []

/-- One copy directive for `a.txt`. -/
def acts_c9 : List (SetOp × String) := [(set_add, "a.txt")]

/-- An OSM configuration whose "files_to_copy" entries are all valid. -/
def cfg_good : List (String × Json) :=
  [("files_to_copy", Json.arr
    [Json.obj [("copy", Json.str "README.md")],
     Json.obj [("skip", Json.str "workspace")]])]

/-- An OSM configuration whose second "files_to_copy" entry has the unknown
action key "rename". -/
def cfg_bad : List (String × Json) :=
  [("files_to_copy", Json.arr
    [Json.obj [("copy", Json.str "README.md")],
     Json.obj [("rename", Json.str "x")]])]

/-! ### Helper lemmas -/

lemma gif_eq_gmf (fs : FS) (item : String) :
    get_items_from fs item = get_matching_files fs item := rfl

lemma gmf_of_file {fs : FS} {item : String} (h : is_file fs (parsePath item)) :
    get_matching_files fs item = [parsePath item] := by
  unfold get_matching_files
  rw [if_pos h]

lemma gmf_of_dir {fs : FS} {item : String} (h1 : ¬ is_file fs (parsePath item))
    (h2 : is_dir fs (parsePath item)) :
    get_matching_files fs item =
      only_relative_files_from fs (rglob_all fs (parsePath item)) := by
  unfold get_matching_files
  rw [if_neg h1, if_pos h2]

lemma gmf_of_glob {fs : FS} {item : String} (h1 : ¬ is_file fs (parsePath item))
    (h2 : ¬ is_dir fs (parsePath item)) :
    get_matching_files fs item =
      only_relative_files_from fs (glob_results fs item) := by
  unfold get_matching_files
  rw [if_neg h1, if_neg h2]

lemma mem_only_relative_files {fs : FS} {l : List RelPath} {q : RelPath} :
    q ∈ only_relative_files_from fs l ↔ q ∈ l ∧ is_file fs q := by
  simp [only_relative_files_from, List.mem_filter]

lemma mem_rglob_all {fs : FS} {d q : RelPath} :
    q ∈ rglob_all fs d ↔ q ∈ entries fs ∧ d <+: q ∧ q ≠ d := by
  simp only [rglob_all, List.mem_filter, Bool.and_eq_true, bne_iff_ne,
    List.isPrefixOf_iff_prefix, and_assoc]

lemma mem_glob_results {fs : FS} {pat : String} {q : RelPath} :
    q ∈ glob_results fs pat ↔ q ∈ entries fs ∧ globMatch (parsePath pat) q = true := by
  simp [glob_results, List.mem_filter]

lemma file_mem_entries {fs : FS} {q : RelPath} (h : q ∈ fs.files) : q ∈ entries fs :=
  List.mem_append_left _ h

lemma mem_gmf_is_file {fs : FS} {item : String} {q : RelPath}
    (h : q ∈ get_matching_files fs item) : is_file fs q := by
  by_cases hf : is_file fs (parsePath item)
  · rw [gmf_of_file hf, List.mem_singleton] at h
    exact h ▸ hf
  · by_cases hd : is_dir fs (parsePath item)
    · rw [gmf_of_dir hf hd] at h
      exact (mem_only_relative_files.mp h).2
    · rw [gmf_of_glob hf hd] at h
      exact (mem_only_relative_files.mp h).2

lemma wf_not_dir {fs : FS} (hw : fs.wf) {p : RelPath} (hf : is_file fs p) :
    ¬ is_dir fs p := by
  obtain ⟨h0, -, hdisj, -, -, -⟩ := hw
  rintro (rfl | hd)
  · exact h0 hf
  · exact hdisj p hf hd

lemma wf_not_file {fs : FS} (hw : fs.wf) {p : RelPath} (hd : is_dir fs p) :
    ¬ is_file fs p :=
  fun hf => wf_not_dir hw hf hd

lemma mem_foldl_setop {op : SetOp} (hop : op = set_add ∨ op = set_discard) :
    ∀ (l : List RelPath) (s : Finset RelPath) (q : RelPath),
      q ∈ l.foldl op s → q ∈ s ∨ q ∈ l := by
  intro l
  induction l with
  | nil => exact fun s q h => Or.inl h
  | cons a t ih =>
      intro s q h
      rw [List.foldl_cons] at h
      rcases ih (op s a) q h with h1 | h1
      · rcases hop with rfl | rfl
        · rcases Finset.mem_insert.mp (by simpa [set_add] using h1) with h2 | h2
          · exact Or.inr (by rw [h2]; exact List.mem_cons_self a t)
          · exact Or.inl h2
        · exact Or.inl (Finset.mem_erase.mp (by simpa [set_discard] using h1)).2
      · exact Or.inr (List.mem_cons_of_mem a h1)

lemma process_fold_files {fs : FS} :
    ∀ (acts : List (SetOp × String)) (s : Finset RelPath),
      (∀ a ∈ acts, a.1 = set_add ∨ a.1 = set_discard) →
      (∀ p ∈ s, is_file fs p) →
      ∀ q ∈ acts.foldl (fun files ai => (get_matching_files fs ai.2).foldl ai.1 files) s,
        is_file fs q := by
  intro acts
  induction acts with
  | nil => exact fun s _ hs q hq => hs q hq
  | cons a t ih =>
      intro s hops hs q hq
      rw [List.foldl_cons] at hq
      refine ih _ (fun b hb => hops b (List.mem_cons_of_mem a hb)) ?_ q hq
      intro p hp
      rcases mem_foldl_setop (hops a (List.mem_cons_self a t)) _ _ p hp with h | h
      · exact hs p h
      · exact mem_gmf_is_file h

lemma mem_process_action_list {fs : FS} {acts : List (SetOp × String)} {q : RelPath}
    (hops : ∀ a ∈ acts, a.1 = set_add ∨ a.1 = set_discard)
    (hq : q ∈ process_action_list_in fs acts) : is_file fs q :=
  process_fold_files acts ∅ hops (fun p hp => absurd hp (Finset.not_mem_empty p)) q hq

lemma removePrefixStr_append (pre rest : String) :
    removePrefixStr (pre ++ rest) pre = rest := by
  unfold removePrefixStr
  rw [if_pos]
  · apply String.ext
    show ((pre ++ rest).data.drop pre.data.length) = rest.data
    rw [String.data_append pre rest]
    exact List.drop_left _ _
  · show (pre.data.isPrefixOf (pre ++ rest).data) = true
    rw [String.data_append pre rest]
    exact List.isPrefixOf_iff_prefix.mpr (List.prefix_append _ _)

lemma append_ne_self {pre : String} (rest : String) (h : pre ≠ "") :
    pre ++ rest ≠ rest := by
  intro he
  have hlen : (pre ++ rest).data.length = rest.data.length := by rw [he]
  rw [String.data_append, List.length_append] at hlen
  have h0 : pre.data.length = 0 := by omega
  exact h (String.ext (List.length_eq_zero.mp h0))

lemma removePrefixStr_ne_self {d pre : String} (hp : pre.toList <+: d.toList)
    (hne : pre ≠ "") : removePrefixStr d pre ≠ d := by
  unfold removePrefixStr
  rw [if_pos (List.isPrefixOf_iff_prefix.mpr hp)]
  intro he
  have hlen : (d.toList.drop pre.toList.length).length = d.data.length := by
    rw [show (d.toList.drop pre.toList.length) =
      (String.mk (d.toList.drop pre.toList.length)).data from rfl, he]
  rw [List.length_drop] at hlen
  have hple : pre.toList.length ≤ d.toList.length := hp.length_le
  have h0 : pre.toList.length = 0 := by
    have : d.toList.length = d.data.length := rfl
    omega
  exact hne (String.ext (List.length_eq_zero.mp h0))

lemma removePrefixStr_eq_self {d pre : String} (hp : ¬ pre.toList <+: d.toList) :
    removePrefixStr d pre = d := by
  unfold removePrefixStr
  rw [if_neg (fun hb => hp (List.isPrefixOf_iff_prefix.mp hb))]

lemma removePrefixStr_of_prefix {d pre : String} (hp : pre.toList <+: d.toList) :
    removePrefixStr d pre = String.mk (d.toList.drop pre.toList.length) := by
  unfold removePrefixStr
  rw [if_pos (List.isPrefixOf_iff_prefix.mpr hp)]

lemma pod_include {fs : FS} {st : GState} {d : String}
    (hp : "Include: ".toList <+: d.toList) :
    process_one_directive fs d st =
      { st with collection :=
          process_item fs (String.mk (d.toList.drop 9)) set_add st.collection } := by
  unfold process_one_directive
  rw [if_pos (removePrefixStr_ne_self hp (by decide))]
  rw [show removePrefixStr d "Include: " = String.mk (d.toList.drop 9) from
    removePrefixStr_of_prefix hp]

lemma pod_exclude {fs : FS} {st : GState} {d : String}
    (hp1 : ¬ "Include: ".toList <+: d.toList)
    (hp2 : "Exclude: ".toList <+: d.toList) :
    process_one_directive fs d st =
      { st with collection :=
          process_item fs (String.mk (d.toList.drop 9)) set_discard st.collection } := by
  unfold process_one_directive
  rw [if_neg (not_not_intro (removePrefixStr_eq_self hp1))]
  rw [if_pos (removePrefixStr_ne_self hp2 (by decide))]
  rw [show removePrefixStr d "Exclude: " = String.mk (d.toList.drop 9) from
    removePrefixStr_of_prefix hp2]

lemma pod_unknown {fs : FS} {st : GState} {d : String}
    (hp1 : ¬ "Include: ".toList <+: d.toList)
    (hp2 : ¬ "Exclude: ".toList <+: d.toList) (hne : d ≠ "") :
    process_one_directive fs d st =
      { st with output :=
          st.output ++ ["Unknown directive " ++ d ++ ", ignoring."] } := by
  unfold process_one_directive
  rw [if_neg (not_not_intro (removePrefixStr_eq_self hp1))]
  rw [if_neg (not_not_intro (removePrefixStr_eq_self hp2))]
  rw [if_pos hne]

lemma pod_blank (fs : FS) (st : GState) : process_one_directive fs "" st = st := rfl

lemma pod_collection_eq {fs : FS} {d : String} {st st' : GState}
    (h : st.collection = st'.collection) :
    (process_one_directive fs d st).collection =
      (process_one_directive fs d st').collection := by
  unfold process_one_directive
  split
  · show process_item fs _ set_add st.collection = process_item fs _ set_add st'.collection
    rw [h]
  · split
    · show process_item fs _ set_discard st.collection =
        process_item fs _ set_discard st'.collection
      rw [h]
    · split
      · exact h
      · exact h

lemma process_run_collection_congr {fs : FS} :
    ∀ (ds : List String) (st st' : GState), st.collection = st'.collection →
      (ds.foldl (fun s d => process_one_directive fs d s) st).collection =
        (ds.foldl (fun s d => process_one_directive fs d s) st').collection := by
  intro ds
  induction ds with
  | nil => exact fun st st' h => h
  | cons d t ih => exact fun st st' h => ih _ _ (pod_collection_eq h)

lemma pod_collection_files {fs : FS} {st : GState} {d : String}
    (hst : ∀ p ∈ st.collection, is_file fs p) :
    ∀ q ∈ (process_one_directive fs d st).collection, is_file fs q := by
  unfold process_one_directive
  split
  · intro q hq
    rcases mem_foldl_setop (Or.inl rfl) _ _ q hq with h | h
    · exact hst q h
    · exact mem_gmf_is_file (gif_eq_gmf fs _ ▸ h)
  · split
    · intro q hq
      rcases mem_foldl_setop (Or.inr rfl) _ _ q hq with h | h
      · exact hst q h
      · exact mem_gmf_is_file (gif_eq_gmf fs _ ▸ h)
    · split
      · exact hst
      · exact hst

lemma process_run_files {fs : FS} :
    ∀ (ds : List String) (st : GState), (∀ p ∈ st.collection, is_file fs p) →
      ∀ q ∈ (ds.foldl (fun s d => process_one_directive fs d s) st).collection,
        is_file fs q := by
  intro ds
  induction ds with
  | nil => exact fun st hst => hst
  | cons d t ih => exact fun st hst => ih _ (pod_collection_files hst)

lemma parse_one_ok_iff {d : Json} :
    (∃ pr, parse_one_directive d = .ok pr) ↔ goodEntry d = true := by
  cases d with
  | obj members =>
      cases members with
      | nil => simp [parse_one_directive, goodEntry]
      | cons kv tl =>
          cases tl with
          | nil =>
              obtain ⟨a, item⟩ := kv
              cases h : FILE_ACTIONS.lookup a with
              | none => cases item <;> simp [parse_one_directive, goodEntry, h]
              | some op => cases item <;> simp [parse_one_directive, goodEntry, h]
          | cons kv2 tl2 => simp [parse_one_directive, goodEntry]
  | null => simp [parse_one_directive, goodEntry]
  | bool b => simp [parse_one_directive, goodEntry]
  | num n => simp [parse_one_directive, goodEntry]
  | str s => simp [parse_one_directive, goodEntry]
  | arr elems => simp [parse_one_directive, goodEntry]

lemma parse_directives_ok_iff : ∀ ds : List Json,
    (∃ l, parse_directives ds = .ok l) ↔ ∀ d ∈ ds, goodEntry d = true := by
  intro ds
  induction ds with
  | nil => simp [parse_directives]
  | cons d t ih =>
      constructor
      · rintro ⟨l, hl⟩ d2 hd2
        cases h1 : parse_one_directive d with
        | error e => rw [parse_directives, h1] at hl; cases hl
        | ok p =>
            cases h2 : parse_directives t with
            | error e => rw [parse_directives, h1, h2] at hl; cases hl
            | ok rest =>
                rcases List.mem_cons.mp hd2 with rfl | hmem
                · exact parse_one_ok_iff.mp ⟨p, h1⟩
                · exact ih.mp ⟨rest, h2⟩ d2 hmem
      · intro hall
        obtain ⟨p, h1⟩ := parse_one_ok_iff.mpr (hall d (List.mem_cons_self d t))
        obtain ⟨rest, h2⟩ := ih.mpr (fun d2 hd2 => hall d2 (List.mem_cons_of_mem d hd2))
        exact ⟨p :: rest, by rw [parse_directives, h1, h2]; rfl⟩

lemma parse_directives_ok_eq : ∀ {ds : List Json} {l : List (SetOp × String)},
    parse_directives ds = .ok l →
      l = ds.filterMap (fun d => (parse_one_directive d).toOption) := by
  intro ds
  induction ds with
  | nil =>
      intro l h
      rw [parse_directives] at h
      cases h
      rfl
  | cons d t ih =>
      intro l h
      cases h1 : parse_one_directive d with
      | error e => rw [parse_directives, h1] at h; cases h
      | ok p =>
          cases h2 : parse_directives t with
          | error e => rw [parse_directives, h1, h2] at h; cases h
          | ok rest =>
              rw [parse_directives, h1, h2] at h
              cases h
              rw [List.filterMap_cons, h1]
              exact congrArg _ (ih h2)

lemma except_error_of_not_ok {x : Except ConfigError (List (SetOp × String))}
    (h : ¬ ∃ l, x = .ok l) : ∃ e, x = .error e := by
  cases x with
  | error e => exact ⟨e, rfl⟩
  | ok l => exact absurd ⟨l, rfl⟩ h

lemma globMatch_single_json {q : RelPath} (h : globMatch ["*.json"] q = true) :
    q.length = 1 := by
  cases q with
  | nil => rw [globMatch] at h; cases h
  | cons c p2 =>
      cases p2 with
      | nil => rfl
      | cons c2 p3 =>
          rw [globMatch, if_neg (by decide), globMatch] at h
          simp at h

lemma inc_not_prefix_exc (A : String) :
    ¬ ("Include: ".toList <+: ("Exclude: " ++ A).toList) := by
  intro h
  rw [show "Include: ".toList = 'I' :: "nclude: ".toList from rfl,
      show ("Exclude: " ++ A).toList = 'E' :: ("xclude: ".toList ++ A.toList) from by
        rw [show ("Exclude: " ++ A).toList = "Exclude: ".data ++ A.data from
          String.data_append _ _]
        rfl] at h
  exact absurd (List.cons_prefix_cons.mp h).1 (by decide)

lemma exc_not_prefix_inc (A : String) :
    ¬ ("Exclude: ".toList <+: ("Include: " ++ A).toList) := by
  intro h
  rw [show "Exclude: ".toList = 'E' :: "xclude: ".toList from rfl,
      show ("Include: " ++ A).toList = 'I' :: ("nclude: ".toList ++ A.toList) from by
        rw [show ("Include: " ++ A).toList = "Include: ".data ++ A.data from
          String.data_append _ _]
        rfl] at h
  exact absurd (List.cons_prefix_cons.mp h).1 (by decide)

lemma pod_include_append (fs : FS) (st : GState) (A : String) :
    process_one_directive fs ("Include: " ++ A) st =
      { st with collection := process_item fs A set_add st.collection } := by
  unfold process_one_directive
  rw [removePrefixStr_append]
  rw [if_pos (Ne.symm (append_ne_self A (by decide)))]

lemma pod_exclude_append (fs : FS) (st : GState) (A : String) :
    process_one_directive fs ("Exclude: " ++ A) st =
      { st with collection := process_item fs A set_discard st.collection } := by
  unfold process_one_directive
  rw [removePrefixStr_eq_self (inc_not_prefix_exc A)]
  rw [if_neg (not_not_intro rfl)]
  rw [removePrefixStr_append]
  rw [if_pos (Ne.symm (append_ne_self A (by decide)))]

/-! ### The claims -/

/-- C1: for a root containing exactly the files a.json, b.json,
workspace.json, snippets/x.md, plugins/buttons/styles.css,
plugins/buttons/main.js and plugins/tag-wrangler/index.js, resolving the
ordered directive list [Include ., Exclude *.json, Include snippets,
Exclude plugins, Include plugins/buttons, Exclude plugins/buttons/styles.css,
Include plugins/tag-wrangler] returns exactly the set {snippets/x.md,
plugins/buttons/main.js, plugins/tag-wrangler/index.js} — in both the osm.py
engine (action pairs) and the glob_fun.py engine (text directives). -/
theorem c1_end_to_end_selection :
    process_action_list_in fs_vault acts_vault =
      {["snippets", "x.md"], ["plugins", "buttons", "main.js"],
       ["plugins", "tag-wrangler", "index.js"]} ∧
    process fs_vault dirs_vault =
      {["snippets", "x.md"], ["plugins", "buttons", "main.js"],
       ["plugins", "tag-wrangler", "index.js"]} :=
  ⟨by decide, by decide⟩

/-- C2: expansion tests the pattern in a fixed order — an existing regular
file wins (and the result is the single parsed path, never a glob
expansion), then an existing directory (recursive walk), and only otherwise
is the pattern treated as a glob; this holds for osm.py `get_matching_files`
and glob_fun.py `get_items_from` alike. -/
theorem c2_expansion_precedence :
    ∀ (fs : FS) (item : String),
      (is_file fs (parsePath item) →
        get_matching_files fs item = [parsePath item] ∧
        get_items_from fs item = [parsePath item]) ∧
      (¬ is_file fs (parsePath item) → is_dir fs (parsePath item) →
        get_matching_files fs item =
          only_relative_files_from fs (rglob_all fs (parsePath item)) ∧
        get_items_from fs item = only_files_from fs (rglob_all fs (parsePath item))) ∧
      (¬ is_file fs (parsePath item) → ¬ is_dir fs (parsePath item) →
        get_matching_files fs item =
          only_relative_files_from fs (glob_results fs item) ∧
        get_items_from fs item = only_files_from fs (glob_results fs item)) := by
  intro fs item
  refine ⟨fun hf => ⟨gmf_of_file hf, ?_⟩,
    fun hf hd => ⟨gmf_of_dir hf hd, ?_⟩,
    fun hf hd => ⟨gmf_of_glob hf hd, ?_⟩⟩
  · rw [gif_eq_gmf]; exact gmf_of_file hf
  · rw [gif_eq_gmf]; exact gmf_of_dir hf hd
  · rw [gif_eq_gmf]; exact gmf_of_glob hf hd

/-- C2 witness: in a root holding a file literally named `*.json` next to
`a.json`, expanding the pattern `*.json` returns just that one file — it is
not re-interpreted as a glob (which would also match `a.json`). -/
theorem c2_expansion_precedence_witness :
    get_matching_files fs_star "*.json" = [["*.json"]] ∧
    get_items_from fs_star "*.json" = [["*.json"]] := by
  have h := (c2_expansion_precedence fs_star "*.json").1 (by decide)
  exact ⟨h.1.trans (by decide), h.2.trans (by decide)⟩

/-- C3: for a wellformed snapshot, expanding a pattern that names an
existing directory yields exactly the regular files strictly below that
directory, each as a root-relative path (the directory's path is a prefix of
each result), and every result is a file, never a directory. -/
theorem c3_directory_expansion :
    ∀ (fs : FS) (item : String), fs.wf → is_dir fs (parsePath item) →
      (∀ q, q ∈ get_matching_files fs item ↔
        (q ∈ fs.files ∧ parsePath item <+: q ∧ q ≠ parsePath item)) ∧
      (∀ q ∈ get_matching_files fs item, is_file fs q ∧ ¬ is_dir fs q) := by
  intro fs item hw hd
  have hnf : ¬ is_file fs (parsePath item) := wf_not_file hw hd
  constructor
  · intro q
    rw [gmf_of_dir hnf hd, mem_only_relative_files, mem_rglob_all]
    constructor
    · rintro ⟨⟨-, hpre, hne⟩, hqf⟩
      exact ⟨hqf, hpre, hne⟩
    · rintro ⟨hqf, hpre, hne⟩
      exact ⟨⟨file_mem_entries hqf, hpre, hne⟩, hqf⟩
  · intro q hq
    have hf := mem_gmf_is_file hq
    exact ⟨hf, wf_not_dir hw hf⟩

/-- C3 witness: in the vault snapshot, expanding the directory `plugins`
contains `plugins/buttons/main.js` (a nested file, root-relative). -/
theorem c3_directory_expansion_witness :
    ["plugins", "buttons", "main.js"] ∈ get_matching_files fs_vault "plugins" :=
  ((c3_directory_expansion fs_vault "plugins" (by decide) (by decide)).1
    ["plugins", "buttons", "main.js"]).mpr (by decide)

/-- C4: resolution is order-sensitive: for an existing file A, [Include A,
Exclude A] leaves A out of the result while [Exclude A, Include A] puts A in
— for the osm.py action pairs and for the glob_fun.py text directives. -/
theorem c4_order_sensitivity :
    ∀ (fs : FS) (A : String), is_file fs (parsePath A) →
      (parsePath A ∉ process_action_list_in fs [(set_add, A), (set_discard, A)]) ∧
      (parsePath A ∈ process_action_list_in fs [(set_discard, A), (set_add, A)]) ∧
      (parsePath A ∉ process fs ["Include: " ++ A, "Exclude: " ++ A]) ∧
      (parsePath A ∈ process fs ["Exclude: " ++ A, "Include: " ++ A]) := by
  intro fs A hf
  have hg : get_matching_files fs A = [parsePath A] := gmf_of_file hf
  have e1 : process_action_list_in fs [(set_add, A), (set_discard, A)] =
      (insert (parsePath A) (∅ : Finset RelPath)).erase (parsePath A) := by
    unfold process_action_list_in
    rw [List.foldl_cons, List.foldl_cons, List.foldl_nil, hg]
    rfl
  have e2 : process_action_list_in fs [(set_discard, A), (set_add, A)] =
      insert (parsePath A) (Finset.erase (∅ : Finset RelPath) (parsePath A)) := by
    unfold process_action_list_in
    rw [List.foldl_cons, List.foldl_cons, List.foldl_nil, hg]
    rfl
  have e3 : process fs ["Include: " ++ A, "Exclude: " ++ A] =
      (insert (parsePath A) (∅ : Finset RelPath)).erase (parsePath A) := by
    unfold process process_run
    rw [List.foldl_cons, List.foldl_cons, List.foldl_nil,
      pod_include_append, pod_exclude_append]
    show process_item fs A set_discard (process_item fs A set_add ∅) = _
    unfold process_item
    rw [gif_eq_gmf, hg]
    rfl
  have e4 : process fs ["Exclude: " ++ A, "Include: " ++ A] =
      insert (parsePath A) (Finset.erase (∅ : Finset RelPath) (parsePath A)) := by
    unfold process process_run
    rw [List.foldl_cons, List.foldl_cons, List.foldl_nil,
      pod_exclude_append, pod_include_append]
    show process_item fs A set_add (process_item fs A set_discard ∅) = _
    unfold process_item
    rw [gif_eq_gmf, hg]
    rfl
  refine ⟨?_, ?_, ?_, ?_⟩
  · rw [e1]; exact Finset.not_mem_erase _ _
  · rw [e2]; exact Finset.mem_insert_self _ _
  · rw [e3]; exact Finset.not_mem_erase _ _
  · rw [e4]; exact Finset.mem_insert_self _ _

/-- C4 witness: the order sensitivity at the concrete root holding `a.txt`. -/
theorem c4_order_sensitivity_witness :
    (parsePath "a.txt" ∉
      process_action_list_in fs_small [(set_add, "a.txt"), (set_discard, "a.txt")]) ∧
    (parsePath "a.txt" ∈
      process_action_list_in fs_small [(set_discard, "a.txt"), (set_add, "a.txt")]) ∧
    (parsePath "a.txt" ∉ process fs_small ["Include: " ++ "a.txt", "Exclude: " ++ "a.txt"]) ∧
    (parsePath "a.txt" ∈ process fs_small ["Exclude: " ++ "a.txt", "Include: " ++ "a.txt"]) :=
  c4_order_sensitivity fs_small "a.txt" (by decide)

/-- C5: for a wellformed snapshot, after processing any prefix of a
directive list (osm.py pairs whose operations come from FILE_ACTIONS, or
glob_fun.py text lines), every member of the accumulated result set is an
existing regular file and never a directory. -/
theorem c5_resultset_only_files :
    ∀ fs : FS, fs.wf →
      (∀ acts : List (SetOp × String),
        (∀ a ∈ acts, a.1 = set_add ∨ a.1 = set_discard) →
        ∀ n : Nat, ∀ q ∈ process_action_list_in fs (acts.take n),
          is_file fs q ∧ ¬ is_dir fs q) ∧
      (∀ (ds : List String) (n : Nat), ∀ q ∈ process fs (ds.take n),
        is_file fs q ∧ ¬ is_dir fs q) := by
  intro fs hw
  constructor
  · intro acts hops n q hq
    have hfq := mem_process_action_list
      (fun a ha => hops a (List.take_subset n acts ha)) hq
    exact ⟨hfq, wf_not_dir hw hfq⟩
  · intro ds n q hq
    have hfq := process_run_files (ds.take n) ⟨∅, []⟩
      (fun p hp => absurd hp (Finset.not_mem_empty p)) q hq
    exact ⟨hfq, wf_not_dir hw hfq⟩

/-- C5 witness: after the first two directives of the vault scenario, a
member of the result set is an existing file and not a directory. -/
theorem c5_resultset_only_files_witness :
    is_file fs_vault ["snippets", "x.md"] ∧ ¬ is_dir fs_vault ["snippets", "x.md"] :=
  (c5_resultset_only_files fs_vault (by decide)).2 dirs_vault 2
    ["snippets", "x.md"] (by decide)

/-- C6: a pattern naming neither an existing file nor an existing directory
is evaluated as a glob against the root: the result is exactly the regular
files matching the glob (root-relative); a glob matching nothing yields the
empty list rather than an error; and a match of the one-component glob
`*.json` is always a single-component (top-level) path. -/
theorem c6_glob_fallback :
    (∀ (fs : FS) (item : String),
      ¬ is_file fs (parsePath item) → ¬ is_dir fs (parsePath item) →
      (∀ q, q ∈ get_matching_files fs item ↔
        (q ∈ fs.files ∧ globMatch (parsePath item) q = true)) ∧
      ((∀ f ∈ fs.files, globMatch (parsePath item) f = false) →
        get_matching_files fs item = [])) ∧
    (∀ (fs : FS) (q : RelPath),
      ¬ is_file fs (parsePath "*.json") → ¬ is_dir fs (parsePath "*.json") →
      q ∈ get_matching_files fs "*.json" → q.length = 1) := by
  constructor
  · intro fs item h1 h2
    constructor
    · intro q
      rw [gmf_of_glob h1 h2, mem_only_relative_files, mem_glob_results]
      constructor
      · rintro ⟨⟨-, hgm⟩, hqf⟩
        exact ⟨hqf, hgm⟩
      · rintro ⟨hqf, hgm⟩
        exact ⟨⟨file_mem_entries hqf, hgm⟩, hqf⟩
    · intro hnone
      rw [gmf_of_glob h1 h2]
      refine List.eq_nil_iff_forall_not_mem.mpr fun q hq => ?_
      obtain ⟨hqg, hqf⟩ := mem_only_relative_files.mp hq
      obtain ⟨-, hgm⟩ := mem_glob_results.mp hqg
      rw [hnone q hqf] at hgm
      cases hgm
  · intro fs q h1 h2 hq
    rw [gmf_of_glob h1 h2] at hq
    obtain ⟨hqg, -⟩ := mem_only_relative_files.mp hq
    obtain ⟨-, hgm⟩ := mem_glob_results.mp hqg
    exact globMatch_single_json hgm

/-- C6 witness: in the root holding `a.json` and `sub/b.json`, the glob
`*.json` matches exactly the top-level `a.json`, the glob `*.md` matches
nothing and yields the empty list, and the matched path has one component. -/
theorem c6_glob_fallback_witness :
    (["a.json"] ∈ get_matching_files fs_sub "*.json") ∧
    (["sub", "b.json"] ∉ get_matching_files fs_sub "*.json") ∧
    get_matching_files fs_sub "*.md" = [] ∧
    (["a.json"] : RelPath).length = 1 := by
  have h := (c6_glob_fallback.1 fs_sub "*.json" (by decide) (by decide)).1
  refine ⟨(h ["a.json"]).mpr (by decide), ?_, ?_, ?_⟩
  · intro hmem
    have h2 := (h ["sub", "b.json"]).mp hmem
    revert h2
    decide
  · exact (c6_glob_fallback.1 fs_sub "*.md" (by decide) (by decide)).2 (by decide)
  · exact c6_glob_fallback.2 fs_sub ["a.json"] (by decide) (by decide)
      ((h ["a.json"]).mpr (by decide))

/-- C7: a directive with an unrecognized verb is never silently ignored —
osm.py rejects it (any entry with an action key outside FILE_ACTIONS makes
`get_processing_directives` fail with an error before any directive is
applied), while glob_fun.py logs an "Unknown directive" warning and skips
the line, leaving the collection unchanged and still processing the
surrounding directives; empty directive entries are ignored silently with no
warning and no effect. -/
theorem c7_unknown_directive_policy :
    (∀ (cfg : List (String × Json)) (ds1 ds2 : List Json) (a : String) (v : Json),
      cfg.lookup "files_to_copy" = some (.arr (ds1 ++ Json.obj [(a, v)] :: ds2)) →
      FILE_ACTIONS.lookup a = none →
      ∃ e, get_processing_directives cfg = .error e) ∧
    (∀ (fs : FS) (st : GState) (d : String),
      ¬ "Include: ".toList <+: d.toList → ¬ "Exclude: ".toList <+: d.toList →
      d ≠ "" →
      process_one_directive fs d st =
        { st with output :=
            st.output ++ ["Unknown directive " ++ d ++ ", ignoring."] }) ∧
    (∀ (fs : FS) (ds1 ds2 : List String) (d : String),
      ¬ "Include: ".toList <+: d.toList → ¬ "Exclude: ".toList <+: d.toList →
      process fs (ds1 ++ d :: ds2) = process fs (ds1 ++ ds2)) ∧
    (∀ (fs : FS) (st : GState), process_one_directive fs "" st = st) := by
  refine ⟨?_, fun fs st d h1 h2 h3 => pod_unknown h1 h2 h3, ?_,
    fun fs st => pod_blank fs st⟩
  · intro cfg ds1 ds2 a v hlook ha
    have hg : get_processing_directives cfg =
        parse_directives (ds1 ++ Json.obj [(a, v)] :: ds2) := by
      unfold get_processing_directives
      rw [hlook]
    rw [hg]
    apply except_error_of_not_ok
    rintro ⟨l, hl⟩
    have hbad := (parse_directives_ok_iff _).mp ⟨l, hl⟩ (Json.obj [(a, v)])
      (List.mem_append_right ds1 (List.mem_cons_self _ _))
    cases v <;> simp [goodEntry, ha] at hbad
  · intro fs ds1 ds2 d h1 h2
    unfold process process_run
    rw [List.foldl_append, List.foldl_append, List.foldl_cons]
    apply process_run_collection_congr
    by_cases hd : d = ""
    · rw [hd, pod_blank]
    · rw [pod_unknown h1 h2 hd]

/-- C7 witness: the configuration with the unknown action "rename" errors;
the unknown line "Rename: y" warns but leaves the collection empty and the
directives around it still select `a.txt`; the empty line is a silent no-op. -/
theorem c7_unknown_directive_policy_witness :
    (∃ e, get_processing_directives cfg_bad = .error e) ∧
    (process_one_directive fs_small "Rename: y" ⟨∅, []⟩).collection = ∅ ∧
    process fs_small (["Include: a.txt"] ++ "Rename: y" :: []) =
      process fs_small (["Include: a.txt"] ++ []) ∧
    process_one_directive fs_small "" ⟨∅, []⟩ = ⟨∅, []⟩ := by
  refine ⟨c7_unknown_directive_policy.1 cfg_bad [Json.obj [("copy", Json.str "README.md")]]
      [] "rename" (Json.str "x") rfl rfl, ?_, ?_, c7_unknown_directive_policy.2.2.2 fs_small ⟨∅, []⟩⟩
  · rw [c7_unknown_directive_policy.2.1 fs_small ⟨∅, []⟩ "Rename: y"
      (by decide) (by decide) (by decide)]
  · exact c7_unknown_directive_policy.2.2.1 fs_small ["Include: a.txt"] [] "Rename: y"
      (by decide) (by decide)

/-- C8 counterexample: whitespace around the pattern is significant, contrary
to the claim — with the single file `a.txt` present, the line with a trailing
space after the pattern selects nothing while the line without it selects the
file, so the two resolve differently. -/
theorem c8_counterexample :
    (["a.txt"] ∈ process fs_small ["Include: a.txt"]) ∧
    (["a.txt"] ∉ process fs_small ["Include: a.txt "]) ∧
    process fs_small ["Include: a.txt "] ≠ process fs_small ["Include: a.txt"] := by
  refine ⟨by decide, by decide, fun h => ?_⟩
  have h1 : ["a.txt"] ∈ process fs_small ["Include: a.txt"] := by decide
  rw [← h] at h1
  exact (by decide : ["a.txt"] ∉ process fs_small ["Include: a.txt "]) h1

/-- C8 (amended): a text directive is parsed by exact, case-sensitive
matching of the verb prefixes "Include: " and then "Exclude: "; the pattern
is the verbatim remainder of the line after the 9-character prefix, with
leading and trailing whitespace kept significant (not stripped); any other
non-empty line is an unknown directive that only appends a warning; the
empty line is ignored silently. -/
theorem c8_line_parse :
    ∀ (fs : FS) (st : GState) (d : String),
      ("Include: ".toList <+: d.toList →
        process_one_directive fs d st =
          { st with collection :=
              process_item fs (String.mk (d.toList.drop 9)) set_add st.collection }) ∧
      (¬ "Include: ".toList <+: d.toList → "Exclude: ".toList <+: d.toList →
        process_one_directive fs d st =
          { st with collection :=
              process_item fs (String.mk (d.toList.drop 9)) set_discard st.collection }) ∧
      (¬ "Include: ".toList <+: d.toList → ¬ "Exclude: ".toList <+: d.toList →
        d ≠ "" →
        process_one_directive fs d st =
          { st with output :=
              st.output ++ ["Unknown directive " ++ d ++ ", ignoring."] }) ∧
      (d = "" → process_one_directive fs d st = st) :=
  fun fs st d =>
    ⟨fun h => pod_include h,
     fun h1 h2 => pod_exclude h1 h2,
     fun h1 h2 h3 => pod_unknown h1 h2 h3,
     fun h => by rw [h]; exact pod_blank fs st⟩

/-- C8 witness: the include line for `a.txt` selects the file via the
verbatim remainder, the unknown line "Rename: a.txt" only logs, and the
empty line does nothing. -/
theorem c8_line_parse_witness :
    (process_one_directive fs_small "Include: a.txt" ⟨∅, []⟩).collection =
      {["a.txt"]} ∧
    (process_one_directive fs_small "Rename: a.txt" ⟨∅, []⟩).output =
      ["Unknown directive Rename: a.txt, ignoring."] ∧
    process_one_directive fs_small "" ⟨∅, []⟩ = ⟨∅, []⟩ := by
  refine ⟨?_, ?_, (c8_line_parse fs_small ⟨∅, []⟩ "").2.2.2 rfl⟩
  · rw [(c8_line_parse fs_small ⟨∅, []⟩ "Include: a.txt").1 (by decide)]
    decide
  · rw [(c8_line_parse fs_small ⟨∅, []⟩ "Rename: a.txt").2.2.1
      (by decide) (by decide) (by decide)]
    decide

/-- C9 (amended): every resolution pass of the engine proper starts from a
fresh empty set (both `process_action_list_in` and glob_fun's `process` fold
from ∅), and the pass itself is a pure function of the snapshot and the
directives; but `get_items_to_copy` persists its first result in the
module-global ITEMS_TO_COPY cache and returns the cached list unchanged on
every later call, recomputing only when the cache is empty. -/
theorem c9_fresh_state_and_cache :
    (∀ fs : FS, process_action_list_in fs [] = ∅) ∧
    (∀ fs : FS, process fs [] = ∅) ∧
    (∀ (fs : FS) (acts : List (SetOp × String)),
      get_items_to_copy fs acts [] = sorted_items (process_action_list_in fs acts)) ∧
    (∀ (fs : FS) (acts : List (SetOp × String)) (cache : List RelPath),
      cache ≠ [] → get_items_to_copy fs acts cache = cache) := by
  refine ⟨fun fs => rfl, fun fs => rfl, fun fs acts => rfl, ?_⟩
  intro fs acts cache h
  cases cache with
  | nil => exact absurd rfl h
  | cons a t => rfl

/-- C9 witness: with a nonempty cache, the call returns the cache untouched
no matter the snapshot or the directives. -/
theorem c9_fresh_state_and_cache_witness :
    get_items_to_copy fs_empty acts_c9 [["a.txt"]] = [["a.txt"]] :=
  c9_fresh_state_and_cache.2.2.2 fs_empty acts_c9 [["a.txt"]] (by decide)

/-- C9 counterexample: the first call (empty cache, root holding `a.txt`)
computes `[a.txt]`; a second call after `a.txt` disappeared returns the
persisted `[a.txt]` instead of recomputing from the current filesystem,
whose fresh resolution is empty — refuting "never persisted or reused". -/
theorem c9_counterexample :
    get_items_to_copy fs_small acts_c9 [] = [["a.txt"]] ∧
    get_items_to_copy fs_empty acts_c9 (get_items_to_copy fs_small acts_c9 []) =
      [["a.txt"]] ∧
    sorted_items (process_action_list_in fs_empty acts_c9) = [] ∧
    get_items_to_copy fs_empty acts_c9 (get_items_to_copy fs_small acts_c9 []) ≠
      sorted_items (process_action_list_in fs_empty acts_c9) := by
  have h1 : process_action_list_in fs_small acts_c9 = {["a.txt"]} := by decide
  have h3 : get_items_to_copy fs_small acts_c9 [] = [["a.txt"]] := by
    show sorted_items (process_action_list_in fs_small acts_c9) = [["a.txt"]]
    rw [h1]
    unfold sorted_items
    rw [Finset.sort_singleton]
    simp
  have h2 : process_action_list_in fs_empty acts_c9 = ∅ := by decide
  have h5 : sorted_items (process_action_list_in fs_empty acts_c9) = [] := by
    rw [h2]
    unfold sorted_items
    rw [Finset.sort_empty]
    simp
  refine ⟨h3, ?_, h5, ?_⟩
  · rw [h3]
    rfl
  · rw [h3, h5]
    decide

/-- C10: parsing the configured "files_to_copy" list yields an
(operation, item) pair stream exactly when every entry is a dict with one
key, a known action ("copy" or "skip") and a string value; the pairs are the
per-entry parses in order; and any malformed entry makes the whole parse
fail with an error, so no directive list is ever produced from a bad
configuration. -/
theorem c10_directive_parsing :
    ∀ (cfg : List (String × Json)) (ds : List Json),
      cfg.lookup "files_to_copy" = some (.arr ds) →
      ((∀ d ∈ ds, goodEntry d = true) ↔
        ∃ l, get_processing_directives cfg = .ok l) ∧
      (∀ l, get_processing_directives cfg = .ok l →
        l = ds.filterMap (fun d => (parse_one_directive d).toOption)) ∧
      ((∃ d ∈ ds, goodEntry d = false) →
        ∃ e, get_processing_directives cfg = .error e) := by
  intro cfg ds hlook
  have hg : get_processing_directives cfg = parse_directives ds := by
    unfold get_processing_directives
    rw [hlook]
  refine ⟨?_, ?_, ?_⟩
  · rw [hg]
    exact (parse_directives_ok_iff ds).symm
  · intro l hl
    rw [hg] at hl
    exact parse_directives_ok_eq hl
  · rintro ⟨d, hd, hbad⟩
    rw [hg]
    apply except_error_of_not_ok
    rintro ⟨l, hl⟩
    have := (parse_directives_ok_iff ds).mp ⟨l, hl⟩ d hd
    rw [hbad] at this
    cases this

/-- C10 witness: the all-valid configuration parses to a pair list; the one
with the unknown action "rename" fails with an error. -/
theorem c10_directive_parsing_witness :
    (∃ l, get_processing_directives cfg_good = .ok l) ∧
    (∃ e, get_processing_directives cfg_bad = .error e) := by
  constructor
  · refine (c10_directive_parsing cfg_good _ rfl).1.mp ?_
    intro d hd
    rcases List.mem_cons.mp hd with rfl | hd2
    · rfl
    · rcases List.mem_cons.mp hd2 with rfl | hd3
      · rfl
      · cases hd3
  · exact (c10_directive_parsing cfg_bad _ rfl).2.2
      ⟨Json.obj [("rename", Json.str "x")],
       List.mem_cons_of_mem _ (List.mem_cons_self _ _), rfl⟩

end OSM
